import Mathlib

/-!
Shallow embedding of the dottor dotfile manager (src/main.rs).

Modelling conventions:
* Paths are lists of components; tilde expansion (shellexpand) is taken as
  already applied, and the absolutization performed by path_abs is dropped,
  so all paths are relative to the repository working directory.
* The filesystem is an association list from file paths to contents.  The
  recursive enumeration get_paths_in(dir, "**/*") is modelled as filtering
  that list to the files strictly below the root, in list order.
* The external globset crate is modelled by bundling each pattern string
  with the behaviour globset gives it: whether Glob::new succeeds, and the
  verdict of the compiled matcher on a candidate path.
* prompt_bool is modelled as a Boolean decision function on the candidate
  path; terminal output (the diff renderer) changes no state and is not
  modelled.
* Outcomes distinguish a recoverable err::Error from a process abort via
  panic (Option/Result unwrap), which no caller can catch.
-/

namespace Dottor

/-- A filesystem path, as a list of components. -/
abbrev Path := List String

/-- Contents of a file: `some s` when the bytes decode as text `s`,
`none` for contents that read_string rejects. -/
abbrev FileContents := Option String

/-- The filesystem: an association list from file paths to contents. -/
abbrev FS := List (Path × FileContents)

/-- Read a file: the first entry with the given path, if any. -/
def FS.read (fs : FS) (p : Path) : Option FileContents :=
  match fs.find? (fun e => e.1 == p) with
  | some e => some e.2
  | none => none

/-- Write a file, overwriting any existing entry at that path. -/
def FS.writeFile (fs : FS) (p : Path) (c : FileContents) : FS :=
  (p, c) :: fs.filter (fun e => e.1 != p)

/-- Path::strip_prefix: the suffix of `p` after `base`, when `base` is a
componentwise prefix of `p`. -/
def dropBase : Path → Path → Option Path
  | [], p => some p
  | _ :: _, [] => none
  | b :: bs, x :: xs => if b == x then dropBase bs xs else none

/-- One performed file copy: source path and destination path. -/
structure CopyOp where
  source : Path
  dest : Path
deriving Repr, DecidableEq

/-- Applier: fs::copy reads the source and overwrites the destination;
a missing source leaves the filesystem unchanged (the real call would
error, which the loops model separately). -/
def applyCopy (fs : FS) (op : CopyOp) : FS :=
  match FS.read fs op.source with
  | some c => FS.writeFile fs op.dest c
  | none => fs

/-- Apply a list of copies in order. -/
def applyCopies (fs : FS) (ops : List CopyOp) : FS :=
  ops.foldl applyCopy fs

/-- Result of running a piece of the program: success, a recoverable
err::Error with its message, or a process abort via panic. -/
inductive Outcome (α : Type) where
  | ok (value : α)
  | error (msg : String)
  | panicked (msg : String)
deriving Repr, DecidableEq

/-- Whether an outcome is a process abort. -/
def Outcome.isPanicked : Outcome α → Bool
  | .panicked _ => true
  | _ => false

/-- A glob pattern string together with the behaviour of the external
globset crate on it: whether Glob::new succeeds on the string, and the
verdict of the compiled matcher on a candidate path. -/
structure GlobPattern where
  raw : String
  compiles : Bool
  verdict : Path → Bool

/-- GlobSet::is_match: true when any pattern in the set matches. -/
def globSetMatch (pats : List GlobPattern) (p : Path) : Bool :=
  pats.any (fun g => g.verdict p)

/-- Lines 191-198 and 415-422 of main.rs: build the exclude GlobSet from
the configuration-level patterns followed by the target/pull-level
patterns.  Glob::new(pattern).unwrap() panics on a pattern that fails to
compile; the final GlobSetBuilder::build().unwrap() succeeds. -/
def compileGlobs (configPats levelPats : List GlobPattern) : Outcome (List GlobPattern) :=
  if (configPats ++ levelPats).all (fun g => g.compiles) then .ok (configPats ++ levelPats)
  else .panicked "called Result::unwrap() on an Err value"

/-- config::TargetSpec as used by main.rs: deploy target path, exclude
patterns, optional per-target require-empty override. -/
structure TargetSpec where
  target : Path
  exclude : List GlobPattern
  target_require_empty : Option Bool

/-- The per-OS pull entry: optional `from` source override (named
`fromPath` because `from` is a Lean keyword) and exclude patterns. -/
structure PullTarget where
  fromPath : Option Path
  exclude : List GlobPattern

/-- The deploy section of a configuration. -/
structure DeployConfig where
  windows : TargetSpec
  linux : TargetSpec
  exclude : List GlobPattern
  target_require_empty : Bool

/-- The pull section of a configuration. -/
structure PullConfig where
  windows : PullTarget
  linux : PullTarget
  exclude : List GlobPattern

/-- A named configuration's data. -/
structure Configuration where
  deploy : DeployConfig
  pull : PullConfig

/-- The resolved repository structure: configuration name to data. -/
structure Structure where
  configs : List (String × Configuration)

/-- config::CONFIG_PATH.  Modelled from the spec: the config module is not
under src; the ProtectedPath is the per-config metadata file, named
dotconfig.toml by the pull error message in main.rs. -/
def CONFIG_PATH : Path := ["dotconfig.toml"]

/-- The error message of the protected-path check in config_pull
(apostrophes dropped). -/
def dotconfigOverwriteMsg : String :=
  "Trying to overwrite dotconfig.toml configuration file. Please add dotconfig.toml to your excludes in the pull configuration."

/-- Modelled from the spec: io_util::check_dir_null_or_empty is not under
src; it fails exactly when the directory is present and non-empty, which
the Boolean argument reports. -/
def check_dir_null_or_empty (nonEmpty : Bool) : Outcome Unit :=
  if nonEmpty then .error "Target directory is not empty." else .ok ()

/-- The error message of check_dir_null_or_empty. -/
def targetNotEmptyMsg : String := "Target directory is not empty."

/-- get_paths_in(root, "**/*"): the files strictly below `root`, in
filesystem order. -/
def filesUnder (fs : FS) (root : Path) : List Path :=
  (fs.map Prod.fst).filter (fun p => (dropBase root p).isSome && p != root)

/-- Lines 175-183 of main.rs: the per-OS (deploy target, pull entry)
pair used by config_pull.  On linux the code reads config.pull.windows. -/
def resolvePullSource (os : String) (config : Configuration) :
    Outcome (TargetSpec × PullTarget) :=
  match os with
  | "windows" => .ok (config.deploy.windows, config.pull.windows)
  | "linux" => .ok (config.deploy.linux, config.pull.windows)
  | _ => .error "Operating system is not supported."

/-- Lines 184-186 of main.rs: the source root of a pull, the `from`
override when present, else the deploy target. -/
def pullSourceRoot (os : String) (config : Configuration) : Outcome Path :=
  match resolvePullSource os config with
  | .ok (deploy_target, pull_from) => .ok (pull_from.fromPath.getD deploy_target.target)
  | .error msg => .error msg
  | .panicked msg => .panicked msg

/-- What processing a single pull candidate does. -/
inductive StepOut where
  | skipped
  | aborted (msg : String) (prompted : Bool)
  | declined
  | accepted (op : CopyOp)
deriving Repr, DecidableEq

/-- The body of the per-candidate loop of config_pull (lines 200-345 of
main.rs): strip the root prefix, skip excluded relatives, abort on the
dotconfig collision, render (print only), prompt, and copy on a yes.
When the destination exists both files are opened before the prompt, so a
missing source aborts there; when it does not exist the copy itself needs
the source. -/
def pullStep (excl : Path → Bool) (configDir dotconfig root : Path)
    (fs : FS) (answer : Path → Bool) (path : Path) : StepOut :=
  match dropBase root path with
  | none => .aborted "could not resolve relative path" false
  | some relative =>
    let toPath := configDir ++ relative
    if excl relative then .skipped
    else if toPath == dotconfig then .aborted dotconfigOverwriteMsg false
    else
      match FS.read fs toPath with
      | some _ =>
        match FS.read fs path with
        | none => .aborted "could not open file" false
        | some _ => if answer path then .accepted ⟨path, toPath⟩ else .declined
      | none =>
        if answer path then
          match FS.read fs path with
          | some _ => .accepted ⟨path, toPath⟩
          | none => .aborted "could not copy file" true
        else .declined

/-- Result of a pull: final outcome, the candidates that reached the
confirmation prompt, and the copies performed, in order. -/
structure PullResult where
  result : Outcome Unit
  prompts : List Path
  copies : List CopyOp
deriving Repr, DecidableEq

/-- The candidate loop of config_pull: process candidates in order; an
abort stops the loop, keeping the copies already made. -/
def pullLoop (excl : Path → Bool) (configDir dotconfig root : Path)
    (fs : FS) (answer : Path → Bool) : List Path → PullResult
  | [] => ⟨.ok (), [], []⟩
  | path :: rest =>
    match pullStep excl configDir dotconfig root fs answer path with
    | .skipped => pullLoop excl configDir dotconfig root fs answer rest
    | .aborted msg prompted => ⟨.error msg, if prompted then [path] else [], []⟩
    | .declined =>
      let r := pullLoop excl configDir dotconfig root fs answer rest
      ⟨r.result, path :: r.prompts, r.copies⟩
    | .accepted op =>
      let r := pullLoop excl configDir dotconfig root fs answer rest
      ⟨r.result, path :: r.prompts, op :: r.copies⟩

/-- config_pull (lines 169-354 of main.rs): look the configuration up,
resolve the per-OS pair, compute the source root, compile the pull
excludes (config-level then per-OS), and run the candidate loop over the
files under the root. -/
def config_pull (os name : String) (st : Structure) (fs : FS)
    (answer : Path → Bool) : PullResult :=
  match (st.configs.find? (fun e => e.1 == name)).map Prod.snd with
  | none => ⟨.error ("Config " ++ name ++ " does not exist."), [], []⟩
  | some config =>
    match resolvePullSource os config with
    | .error msg => ⟨.error msg, [], []⟩
    | .panicked msg => ⟨.panicked msg, [], []⟩
    | .ok (deploy_target, pull_from) =>
      let fromRoot := pull_from.fromPath.getD deploy_target.target
      let config_dir : Path := [name]
      let dotconfig := config_dir ++ CONFIG_PATH
      match compileGlobs config.pull.exclude pull_from.exclude with
      | .error msg => ⟨.error msg, [], []⟩
      | .panicked msg => ⟨.panicked msg, [], []⟩
      | .ok pats =>
        pullLoop (globSetMatch pats) config_dir dotconfig fromRoot fs answer
          (filesUnder fs fromRoot)

/-- Result of a deploy: final outcome and the copies performed. -/
structure DeployResult where
  result : Outcome Unit
  copies : List CopyOp
deriving Repr, DecidableEq

/-- Lines 383-391 of main.rs: the per-OS deploy target. -/
def resolveDeployTarget (os : String) (config : Configuration) : Outcome TargetSpec :=
  match os with
  | "windows" => .ok config.deploy.windows
  | "linux" => .ok config.deploy.linux
  | _ => .error "Operating system is not supported."

/-- The copy loop of deploy_to (lines 425-435 of main.rs): for each
enumerated file, build the destination from the stripped relative path,
then copy unless the exclude set matches the full enumerated path or the
file is the dotconfig. -/
def deployLoop (excl : Path → Bool) (configDir dotconfig targetPath : Path)
    (fs : FS) : List Path → DeployResult
  | [] => ⟨.ok (), []⟩
  | path :: rest =>
    match dropBase configDir path with
    | none => ⟨.error "could not resolve relative path", []⟩
    | some relative =>
      let toPath := targetPath ++ relative
      if !(excl path || path == dotconfig) then
        match FS.read fs path with
        | none => ⟨.error "could not copy file", []⟩
        | some _ =>
          let r := deployLoop excl configDir dotconfig targetPath fs rest
          ⟨r.result, ⟨path, toPath⟩ :: r.copies⟩
      else deployLoop excl configDir dotconfig targetPath fs rest

/-- Lines 396-407 of main.rs: the require-empty check before any copy,
the per-target override taking precedence over the configuration-level
default. -/
def requireEmptyCheck (target : TargetSpec) (config : Configuration)
    (targetNonEmpty : Bool) : Outcome Unit :=
  match target.target_require_empty with
  | some value => if value then check_dir_null_or_empty targetNonEmpty else .ok ()
  | none =>
    if config.deploy.target_require_empty then check_dir_null_or_empty targetNonEmpty
    else .ok ()

/-- deploy_to (lines 382-438 of main.rs): resolve the per-OS target,
run the require-empty check (per-target override, else the
configuration-level default), require the dotconfig file to exist
(PathFile::new), compile the deploy excludes (config-level then
per-target), and run the copy loop over the files under the
configuration directory. -/
def deploy_to (os name : String) (config : Configuration)
    (targetNonEmpty : Bool) (fs : FS) : DeployResult :=
  match resolveDeployTarget os config with
  | .error msg => ⟨.error msg, []⟩
  | .panicked msg => ⟨.panicked msg, []⟩
  | .ok target =>
    let targetPath := target.target
    match requireEmptyCheck target config targetNonEmpty with
    | .error msg => ⟨.error msg, []⟩
    | .panicked msg => ⟨.panicked msg, []⟩
    | .ok _ =>
      let config_dir : Path := [name]
      let dotconfig := config_dir ++ CONFIG_PATH
      match FS.read fs dotconfig with
      | none => ⟨.error "dotconfig file not found", []⟩
      | some _ =>
        match compileGlobs config.deploy.exclude target.exclude with
        | .error msg => ⟨.error msg, []⟩
        | .panicked msg => ⟨.panicked msg, []⟩
        | .ok pats =>
          deployLoop (globSetMatch pats) config_dir dotconfig targetPath fs
            (filesUnder fs config_dir)

/-- The deploy-all branch of deploy (lines 371-379 of main.rs): deploy
each configuration in order; an Err from one is printed and the loop
continues, and the overall call returns Ok.  A panic inside deploy_to is
not caught and aborts the whole run. -/
def deploy_all (os : String) (configs : List (String × Configuration))
    (nonEmpty : String → Bool) (fs : FS) : Outcome Unit × List DeployResult :=
  match configs with
  | [] => (.ok (), [])
  | entry :: rest =>
    let r := deploy_to os entry.1 entry.2 (nonEmpty entry.1) fs
    match r.result with
    | .panicked msg => (.panicked msg, [r])
    | _ =>
      let rs := deploy_all os rest nonEmpty fs
      (rs.1, r :: rs.2)

/-- What the delete command did. -/
inductive DeleteOutcome where
  | errored (msg : String)
  | deleted (name : String)
deriving Repr, DecidableEq

/-- Modelled from the spec: config::delete_config is not under src; per
the spec it deletes the named configuration, recorded here as the
deletion it performs. -/
def delete_config (name : String) : DeleteOutcome :=
  .deleted name

/-- config_delete (lines 157-166 of main.rs): when the structure contains
the name, return the there-is-no-config error; otherwise call
delete_config. -/
def config_delete (st : Structure) (name : String) : DeleteOutcome :=
  if st.configs.any (fun e => e.1 == name) then
    .errored ("There is no config with the name " ++ name)
  else delete_config name

/-! Helper lemmas about the filesystem model. -/

theorem find?_filter_ne (fs : FS) (p q : Path) (h : q ≠ p) :
    (fs.filter (fun e => e.1 != p)).find? (fun e => e.1 == q)
      = fs.find? (fun e => e.1 == q) := by
  induction fs with
  | nil => rfl
  | cons e fs ih =>
    by_cases hq : e.1 = q
    · have hp : (e.1 != p) = true := by
        simp only [bne_iff_ne, ne_eq, hq]
        exact fun hh => h hh
      rw [@List.filter_cons_of_pos _ (fun e => e.1 != p) e fs hp,
        List.find?_cons_of_pos _ (by simp [hq]),
        List.find?_cons_of_pos _ (by simp [hq])]
    · by_cases hp : e.1 = p
      · rw [@List.filter_cons_of_neg _ (fun e => e.1 != p) e fs (by simp [hp]),
          List.find?_cons_of_neg _ (by simp [hq]), ih]
      · rw [@List.filter_cons_of_pos _ (fun e => e.1 != p) e fs (by simp [hp]),
          List.find?_cons_of_neg _ (by simp [hq]),
          List.find?_cons_of_neg _ (by simp [hq]), ih]

theorem FS.read_writeFile_ne (fs : FS) (p q : Path) (c : FileContents) (h : q ≠ p) :
    FS.read (FS.writeFile fs p c) q = FS.read fs q := by
  unfold FS.read FS.writeFile
  rw [List.find?_cons]
  have : ((p, c).1 == q) = false := by simp [Ne.symm h]
  simp only [this, cond_false, find?_filter_ne fs p q h]

theorem FS.read_writeFile_self (fs : FS) (p : Path) (c : FileContents) :
    FS.read (FS.writeFile fs p c) p = some c := by
  unfold FS.read FS.writeFile
  simp [List.find?_cons]

theorem applyCopies_read_of_not_dest (ops : List CopyOp) (fs : FS) (q : Path)
    (h : ∀ op ∈ ops, op.dest ≠ q) :
    FS.read (applyCopies fs ops) q = FS.read fs q := by
  induction ops generalizing fs with
  | nil => rfl
  | cons op ops ih =>
    have hstep : FS.read (applyCopy fs op) q = FS.read fs q := by
      unfold applyCopy
      cases FS.read fs op.source with
      | none => rfl
      | some c => exact FS.read_writeFile_ne fs op.dest q c (Ne.symm (h op (by simp)))
    have htail : ∀ o ∈ ops, o.dest ≠ q := fun o ho => h o (by simp [ho])
    calc FS.read (applyCopies fs (op :: ops)) q
        = FS.read (applyCopies (applyCopy fs op) ops) q := rfl
      _ = FS.read (applyCopy fs op) q := ih (applyCopy fs op) htail
      _ = FS.read fs q := hstep

/-! Helper lemmas about the pull candidate loop. -/

theorem pullStep_skipped_of_excl (excl : Path → Bool) (configDir dotconfig root : Path)
    (fs : FS) (answer : Path → Bool) (path rel : Path)
    (hrel : dropBase root path = some rel) (hexcl : excl rel = true) :
    pullStep excl configDir dotconfig root fs answer path = .skipped := by
  unfold pullStep
  rw [hrel]
  simp [hexcl]

theorem pullStep_abort_dotconfig (excl : Path → Bool) (configDir dotconfig root : Path)
    (fs : FS) (answer : Path → Bool) (path rel : Path)
    (hrel : dropBase root path = some rel) (hexcl : excl rel = false)
    (hdc : configDir ++ rel = dotconfig) :
    pullStep excl configDir dotconfig root fs answer path
      = .aborted dotconfigOverwriteMsg false := by
  unfold pullStep
  rw [hrel]
  simp [hexcl, hdc]

theorem pullStep_declined (excl : Path → Bool) (configDir dotconfig root : Path)
    (fs : FS) (answer : Path → Bool) (path rel : Path)
    (hrel : dropBase root path = some rel) (hexcl : excl rel = false)
    (hdc : configDir ++ rel ≠ dotconfig)
    (hsrc : (FS.read fs path).isSome = true) (hans : answer path = false) :
    pullStep excl configDir dotconfig root fs answer path = .declined := by
  obtain ⟨c, hc⟩ := Option.isSome_iff_exists.mp hsrc
  unfold pullStep
  rw [hrel]
  simp only [hexcl, Bool.false_eq_true, if_false]
  rw [if_neg (by simpa using hdc)]
  cases FS.read fs (configDir ++ rel) <;> simp [hc, hans]

theorem pullStep_accepted (excl : Path → Bool) (configDir dotconfig root : Path)
    (fs : FS) (answer : Path → Bool) (path rel : Path)
    (hrel : dropBase root path = some rel) (hexcl : excl rel = false)
    (hdc : configDir ++ rel ≠ dotconfig)
    (hsrc : (FS.read fs path).isSome = true) (hans : answer path = true) :
    pullStep excl configDir dotconfig root fs answer path
      = .accepted ⟨path, configDir ++ rel⟩ := by
  obtain ⟨c, hc⟩ := Option.isSome_iff_exists.mp hsrc
  unfold pullStep
  rw [hrel]
  simp only [hexcl, Bool.false_eq_true, if_false]
  rw [if_neg (by simpa using hdc)]
  cases FS.read fs (configDir ++ rel) <;> simp [hc, hans]

theorem pullStep_accepted_inv (excl : Path → Bool) (configDir dotconfig root : Path)
    (fs : FS) (answer : Path → Bool) (path : Path) (op : CopyOp)
    (h : pullStep excl configDir dotconfig root fs answer path = .accepted op) :
    ∃ r, dropBase root path = some r ∧ excl r = false
      ∧ configDir ++ r ≠ dotconfig ∧ op = ⟨path, configDir ++ r⟩ := by
  unfold pullStep at h
  cases hrel : dropBase root path with
  | none => rw [hrel] at h; exact absurd h (by simp)
  | some r =>
    rw [hrel] at h
    simp only at h
    by_cases he : excl r
    · rw [if_pos he] at h; exact absurd h (by simp)
    · rw [if_neg he] at h
      by_cases hd : configDir ++ r == dotconfig
      · rw [if_pos hd] at h; exact absurd h (by simp)
      · rw [if_neg hd] at h
        refine ⟨r, rfl, by simpa using he, by simpa using hd, ?_⟩
        cases hread : FS.read fs (configDir ++ r) with
        | some c =>
          simp only [hread] at h
          cases hsrc : FS.read fs path with
          | none => simp only [hsrc] at h; exact absurd h (by simp)
          | some c2 =>
            simp only [hsrc] at h
            by_cases ha : answer path
            · rw [if_pos ha] at h
              injection h with h2
              exact h2.symm
            · rw [if_neg ha] at h; exact absurd h (by simp)
        | none =>
          simp only [hread] at h
          by_cases ha : answer path
          · rw [if_pos ha] at h
            cases hsrc : FS.read fs path with
            | none => simp only [hsrc] at h; exact absurd h (by simp)
            | some c2 =>
              simp only [hsrc] at h
              injection h with h2
              exact h2.symm
          · rw [if_neg ha] at h; exact absurd h (by simp)

theorem pullLoop_append (excl : Path → Bool) (configDir dotconfig root : Path)
    (fs : FS) (answer : Path → Bool) (pre rest : List Path)
    (h : (pullLoop excl configDir dotconfig root fs answer pre).result = .ok ()) :
    pullLoop excl configDir dotconfig root fs answer (pre ++ rest)
      = ⟨(pullLoop excl configDir dotconfig root fs answer rest).result,
         (pullLoop excl configDir dotconfig root fs answer pre).prompts
           ++ (pullLoop excl configDir dotconfig root fs answer rest).prompts,
         (pullLoop excl configDir dotconfig root fs answer pre).copies
           ++ (pullLoop excl configDir dotconfig root fs answer rest).copies⟩ := by
  induction pre with
  | nil => simp [pullLoop]
  | cons p pre ih =>
    cases hs : pullStep excl configDir dotconfig root fs answer p with
    | skipped =>
      rw [pullLoop] at h
      simp only [hs] at h
      simp only [List.cons_append, pullLoop, hs, List.append_eq]
      exact ih h
    | aborted msg prompted =>
      rw [pullLoop] at h
      simp only [hs] at h
      exact absurd h (by simp)
    | declined =>
      rw [pullLoop] at h
      simp only [hs] at h
      simp only [List.cons_append, pullLoop, hs, List.append_eq, ih h]
    | accepted op =>
      rw [pullLoop] at h
      simp only [hs] at h
      simp only [List.cons_append, pullLoop, hs, List.append_eq, ih h]

theorem pullLoop_copies_spec (excl : Path → Bool) (configDir dotconfig root : Path)
    (fs : FS) (answer : Path → Bool) (files : List Path) (op : CopyOp)
    (h : op ∈ (pullLoop excl configDir dotconfig root fs answer files).copies) :
    op.source ∈ files ∧ ∃ r, dropBase root op.source = some r ∧ excl r = false
      ∧ configDir ++ r ≠ dotconfig ∧ op.dest = configDir ++ r := by
  induction files with
  | nil => simp [pullLoop] at h
  | cons p rest ih =>
    rw [pullLoop] at h
    cases hs : pullStep excl configDir dotconfig root fs answer p with
    | skipped =>
      simp only [hs] at h
      obtain ⟨h1, h2⟩ := ih h
      exact ⟨List.mem_cons_of_mem p h1, h2⟩
    | aborted msg prompted =>
      simp only [hs] at h
      exact absurd h (by simp)
    | declined =>
      simp only [hs] at h
      obtain ⟨h1, h2⟩ := ih h
      exact ⟨List.mem_cons_of_mem p h1, h2⟩
    | accepted op2 =>
      simp only [hs] at h
      rw [List.mem_cons] at h
      cases h with
      | inl heq =>
        obtain ⟨r, hrel, hexcl, hdc, hop⟩ :=
          pullStep_accepted_inv excl configDir dotconfig root fs answer p op2 hs
        subst heq
        rw [hop]
        exact ⟨by simp, r, hrel, hexcl, hdc, rfl⟩
      | inr hmem =>
        obtain ⟨h1, h2⟩ := ih hmem
        exact ⟨List.mem_cons_of_mem p h1, h2⟩

/-! Helper lemmas about the deploy copy loop. -/

theorem deployLoop_copies_spec (excl : Path → Bool) (configDir dotconfig targetPath : Path)
    (fs : FS) (files : List Path) (op : CopyOp)
    (h : op ∈ (deployLoop excl configDir dotconfig targetPath fs files).copies) :
    op.source ∈ files ∧ excl op.source = false ∧ op.source ≠ dotconfig
      ∧ ∃ r, dropBase configDir op.source = some r ∧ op.dest = targetPath ++ r := by
  induction files with
  | nil => simp [deployLoop] at h
  | cons p rest ih =>
    rw [deployLoop] at h
    cases hrel : dropBase configDir p with
    | none =>
      simp only [hrel] at h
      exact absurd h (by simp)
    | some r =>
      simp only [hrel] at h
      by_cases hc : (!(excl p || p == dotconfig)) = true
      · rw [if_pos hc] at h
        cases hread : FS.read fs p with
        | none =>
          simp only [hread] at h
          exact absurd h (by simp)
        | some c =>
          simp only [hread] at h
          rw [List.mem_cons] at h
          have hsplit : excl p = false ∧ p ≠ dotconfig := by
            constructor
            · cases hce : excl p
              · rfl
              · rw [hce] at hc; simp at hc
            · intro hpe
              rw [hpe] at hc
              simp at hc
          cases h with
          | inl heq =>
            subst heq
            exact ⟨by simp, hsplit.1, hsplit.2, r, hrel, rfl⟩
          | inr hmem =>
            obtain ⟨h1, h2⟩ := ih hmem
            exact ⟨List.mem_cons_of_mem p h1, h2⟩
      · rw [if_neg hc] at h
        obtain ⟨h1, h2⟩ := ih h
        exact ⟨List.mem_cons_of_mem p h1, h2⟩

theorem deployLoop_all_not_dotconfig (excl : Path → Bool)
    (configDir dotconfig targetPath : Path) (fs : FS) (files : List Path) :
    ((deployLoop excl configDir dotconfig targetPath fs files).copies).all
      (fun op => op.source != dotconfig) = true := by
  rw [List.all_eq_true]
  intro op hop
  have := (deployLoop_copies_spec excl configDir dotconfig targetPath fs files op hop).2.2.1
  simpa using this

/-! Concrete inputs used by the claim theorems. -/

/-- A neutral example configuration. -/
def baseConfig : Configuration :=
  { deploy :=
      { windows := { target := ["wt"], exclude := [], target_require_empty := none }
      , linux := { target := ["lt"], exclude := [], target_require_empty := none }
      , exclude := []
      , target_require_empty := false }
  , pull :=
      { windows := { fromPath := none, exclude := [] }
      , linux := { fromPath := none, exclude := [] }
      , exclude := [] } }

/-- A configuration with distinct Linux and Windows pull overrides. -/
def c1Config : Configuration :=
  { baseConfig with pull :=
      { windows := { fromPath := some ["wx"], exclude := [] }
      , linux := { fromPath := some ["lx"], exclude := [] }
      , exclude := [] } }

/-- C1: the claim says the pull source root is resolved from the pull
override of the current operating system (on Linux, the Linux-specific
one), falling back to the deploy target.  On Linux the code reads the
Windows-specific pull override instead: with distinct overrides it
returns the Windows one, and with only a Linux override present it
ignores it and falls back to the deploy target. -/
theorem c1_pull_source_linux_reads_windows_override :
    pullSourceRoot "linux" c1Config = .ok ["wx"]
    ∧ c1Config.pull.linux.fromPath = some ["lx"]
    ∧ (["wx"] : Path) ≠ ["lx"]
    ∧ pullSourceRoot "linux"
        { c1Config with pull :=
            { windows := { fromPath := none, exclude := [] }
            , linux := { fromPath := some ["lx"], exclude := [] }
            , exclude := [] } }
      = .ok ["lt"] := by
  refine ⟨by decide, by decide, by decide, by decide⟩

/-- A pattern string that globset rejects. -/
def badGlob : GlobPattern :=
  { raw := "[", compiles := false, verdict := fun _ => false }

/-- A configuration whose exclude lists contain the malformed pattern. -/
def c3Config : Configuration :=
  { baseConfig with
      deploy := { baseConfig.deploy with exclude := [badGlob] }
    , pull := { baseConfig.pull with exclude := [badGlob] } }

/-- The filesystem for the C3 run: the dotconfig of config app exists. -/
def c3Fs : FS := [(["app", "dotconfig.toml"], some "cfg")]

/-- C3: the claim says a malformed exclude glob is reported as a
recoverable error naming the pattern and its source.  The code calls
Glob::new(pattern).unwrap(), so both deploy and pull abort the whole
process with a panic instead of returning a recoverable error. -/
theorem c3_malformed_glob_panics :
    (deploy_to "linux" "app" c3Config false c3Fs).result
      = .panicked "called Result::unwrap() on an Err value"
    ∧ (config_pull "linux" "app" ⟨[("app", c3Config)]⟩ c3Fs (fun _ => true)).result
      = .panicked "called Result::unwrap() on an Err value" := by
  refine ⟨by decide, by decide⟩

/-- C4: the claim says config delete errors exactly when the name is
absent and deletes exactly when it is present.  The code's guard is
inverted: with the config present it errors, with a message asserting
absence, and with the config absent it proceeds to delete. -/
theorem c4_config_delete_guard_inverted :
    config_delete ⟨[("foo", baseConfig)]⟩ "foo"
      = .errored "There is no config with the name foo"
    ∧ config_delete ⟨[]⟩ "foo" = .deleted "foo" := by
  refine ⟨by decide, by decide⟩

/-- A compiled glob that matches exactly the relative path secret.txt,
as globset does for the pattern string secret.txt. -/
def secretGlob : GlobPattern :=
  { raw := "secret.txt", compiles := true, verdict := fun p => p == ["secret.txt"] }

/-- A configuration whose Linux deploy target excludes secret.txt. -/
def c2Config : Configuration :=
  { baseConfig with deploy :=
      { baseConfig.deploy with linux :=
          { target := ["tgt"], exclude := [secretGlob], target_require_empty := none } } }

/-- The filesystem for the C2 run: the config directory app holds its
dotconfig and the file secret.txt. -/
def c2Fs : FS :=
  [(["app", "dotconfig.toml"], some "cfg"), (["app", "secret.txt"], some "s")]

/-- C2 counterexample: the target-level exclude pattern matches the
candidate's relative path secret.txt, yet deploy copies the file, because
deploy matches exclude patterns against the full enumerated path
app/secret.txt rather than the relative path. -/
theorem c2_counterexample_deploy_matches_full_path :
    globSetMatch [secretGlob] ["secret.txt"] = true
    ∧ dropBase ["app"] ["app", "secret.txt"] = some ["secret.txt"]
    ∧ (deploy_to "linux" "app" c2Config false c2Fs).result = .ok ()
    ∧ (deploy_to "linux" "app" c2Config false c2Fs).copies
        = [⟨["app", "secret.txt"], ["tgt", "secret.txt"]⟩] := by
  refine ⟨by decide, by decide, by decide, by decide⟩

/-- C2 amended: pull evaluates exclude patterns against the candidate's
path relative to the source root, and a candidate whose relative path
matches is never copied by pull; deploy evaluates them against the full
enumerated path (configuration-directory prefix included), so every file
deploy copies is unmatched as a full path, while a file whose relative
path matches an exclude can still be copied by deploy. -/
theorem c2_amended_exclusion_roots :
    (∀ (excl : Path → Bool) (configDir dotconfig root : Path) (fs : FS)
        (answer : Path → Bool) (files : List Path) (op : CopyOp) (r : Path),
        op ∈ (pullLoop excl configDir dotconfig root fs answer files).copies →
        dropBase root op.source = some r → excl r = false)
    ∧ (∀ (excl : Path → Bool) (configDir dotconfig targetPath : Path) (fs : FS)
        (files : List Path) (op : CopyOp),
        op ∈ (deployLoop excl configDir dotconfig targetPath fs files).copies →
        excl op.source = false) := by
  constructor
  · intro excl configDir dotconfig root fs answer files op r hmem hr
    obtain ⟨-, r2, hr2, he, -, -⟩ :=
      pullLoop_copies_spec excl configDir dotconfig root fs answer files op hmem
    rw [hr] at hr2
    cases hr2
    exact he
  · intro excl configDir dotconfig targetPath fs files op hmem
    exact (deployLoop_copies_spec excl configDir dotconfig targetPath fs files op hmem).2.1

/-- The filesystem for the C2 amended witness. -/
def c2wFs : FS := [(["r", "f"], some "x")]

/-- Witness for the amended C2 theorem at a concrete run of each loop. -/
theorem c2_amended_witness :
    ((fun p : Path => p == ["z"]) ["f"] = false)
    ∧ ((fun p : Path => p == ["z"]) ["r", "f"] = false) :=
  ⟨c2_amended_exclusion_roots.1 (fun p => p == ["z"]) ["c"] ["c", "dotconfig.toml"]
      ["r"] c2wFs (fun _ => true) [["r", "f"]] ⟨["r", "f"], ["c", "f"]⟩ ["f"]
      (by decide) (by decide),
   c2_amended_exclusion_roots.2 (fun p => p == ["z"]) ["r"] ["r", "dotconfig.toml"]
      ["t"] c2wFs [["r", "f"]] ⟨["r", "f"], ["t", "f"]⟩ (by decide)⟩

/-- C5: during a pull, a non-excluded candidate whose destination equals
the dotconfig aborts the whole loop with the protected-path error as soon
as it is reached: provided the candidates before it completed without an
abort, the run over the whole list returns that error, performs exactly
the copies of the prefix (no rollback), and prompts for nothing past the
prefix, so no later candidate is processed. -/
theorem c5_pull_aborts_on_dotconfig (excl : Path → Bool)
    (configDir dotconfig root : Path) (fs : FS) (answer : Path → Bool)
    (pre post : List Path) (c rel : Path)
    (hpre : (pullLoop excl configDir dotconfig root fs answer pre).result = .ok ())
    (hrel : dropBase root c = some rel) (hexcl : excl rel = false)
    (hdc : configDir ++ rel = dotconfig) :
    pullLoop excl configDir dotconfig root fs answer (pre ++ c :: post)
      = ⟨.error dotconfigOverwriteMsg,
         (pullLoop excl configDir dotconfig root fs answer pre).prompts,
         (pullLoop excl configDir dotconfig root fs answer pre).copies⟩ := by
  rw [pullLoop_append excl configDir dotconfig root fs answer pre (c :: post) hpre]
  have hstep := pullStep_abort_dotconfig excl configDir dotconfig root fs answer c rel
    hrel hexcl hdc
  rw [pullLoop]
  simp only [hstep]
  simp

/-- The filesystem for the C5 witness run. -/
def c5Fs : FS :=
  [(["r", "a"], some "x"), (["r", "dotconfig.toml"], some "d"), (["r", "b"], some "y")]

/-- Witness for C5: the file a before the collision is pulled, then the
dotconfig candidate aborts, and b is never reached. -/
theorem c5_witness :
    pullLoop (fun _ => false) ["c"] (["c"] ++ CONFIG_PATH) ["r"] c5Fs (fun _ => true)
        ([["r", "a"]] ++ ["r", "dotconfig.toml"] :: [["r", "b"]])
      = ⟨.error dotconfigOverwriteMsg, [["r", "a"]],
         [⟨["r", "a"], ["c", "a"]⟩]⟩ := by
  rw [c5_pull_aborts_on_dotconfig (fun _ => false) ["c"] (["c"] ++ CONFIG_PATH) ["r"]
    c5Fs (fun _ => true) [["r", "a"]] [["r", "b"]] ["r", "dotconfig.toml"]
    ["dotconfig.toml"] (by decide) (by decide) (by decide) (by decide)]
  decide

/-- Replace the per-target require-empty override of both OS targets and
the configuration-level default of a configuration. -/
def withRequireEmpty (config : Configuration) (per : Option Bool) (dflt : Bool) :
    Configuration :=
  { config with deploy :=
      { config.deploy with
          windows := { config.deploy.windows with target_require_empty := per }
        , linux := { config.deploy.linux with target_require_empty := per }
        , target_require_empty := dflt } }

theorem resolveDeployTarget_fields (os : String) (c1 c2 : Configuration)
    (hw : c1.deploy.windows = c2.deploy.windows)
    (hl : c1.deploy.linux = c2.deploy.linux) :
    resolveDeployTarget os c1 = resolveDeployTarget os c2 := by
  unfold resolveDeployTarget
  rw [hw, hl]

theorem resolveDeployTarget_requireEmpty (os : String) (config : Configuration)
    (per : Option Bool) (dflt : Bool) (t : TargetSpec)
    (h : resolveDeployTarget os (withRequireEmpty config per dflt) = .ok t) :
    t.target_require_empty = per := by
  unfold resolveDeployTarget at h
  split at h
  · injection h with h2
    rw [← h2]
    rfl
  · injection h with h2
    rw [← h2]
    rfl
  · exact absurd h (by simp)

theorem deploy_to_congr (os name : String) (c1 c2 : Configuration)
    (ne1 ne2 : Bool) (fs : FS)
    (hres : resolveDeployTarget os c1 = resolveDeployTarget os c2)
    (hchk : ∀ t, resolveDeployTarget os c1 = .ok t →
        requireEmptyCheck t c1 ne1 = requireEmptyCheck t c2 ne2)
    (hex : c1.deploy.exclude = c2.deploy.exclude) :
    deploy_to os name c1 ne1 fs = deploy_to os name c2 ne2 fs := by
  cases hR : resolveDeployTarget os c1 with
  | error msg =>
    have hR2 : resolveDeployTarget os c2 = .error msg := hres.symm.trans hR
    simp [deploy_to, hR, hR2]
  | panicked msg =>
    have hR2 : resolveDeployTarget os c2 = .panicked msg := hres.symm.trans hR
    simp [deploy_to, hR, hR2]
  | ok target =>
    have hR2 : resolveDeployTarget os c2 = .ok target := hres.symm.trans hR
    have hck := hchk target hR
    cases hE : requireEmptyCheck target c1 ne1 with
    | error msg => simp [deploy_to, hR, hR2, hE, hck.symm.trans hE]
    | panicked msg => simp [deploy_to, hR, hR2, hE, hck.symm.trans hE]
    | ok v =>
      have hE2 : requireEmptyCheck target c2 ne2 = .ok v := hck.symm.trans hE
      simp [deploy_to, hR, hR2, hE, hE2, hex]

/-- C6: deploy never copies the file whose path is the dotconfig of the
configuration being deployed, whatever the exclude configuration, the
target state and the filesystem. -/
theorem c6_deploy_never_copies_dotconfig (os name : String) (config : Configuration)
    (targetNonEmpty : Bool) (fs : FS) :
    ((deploy_to os name config targetNonEmpty fs).copies).all
      (fun op => op.source != ([name] ++ CONFIG_PATH)) = true := by
  cases hR : resolveDeployTarget os config with
  | error msg => simp [deploy_to, hR]
  | panicked msg => simp [deploy_to, hR]
  | ok target =>
    cases hE : requireEmptyCheck target config targetNonEmpty with
    | error msg => simp [deploy_to, hR, hE]
    | panicked msg => simp [deploy_to, hR, hE]
    | ok v =>
      cases hF : FS.read fs (name :: CONFIG_PATH) with
      | none => simp [deploy_to, hR, hE, hF]
      | some c =>
        cases hG : compileGlobs config.deploy.exclude target.exclude with
        | error msg => simp [deploy_to, hR, hE, hF, hG]
        | panicked msg => simp [deploy_to, hR, hE, hF, hG]
        | ok pats =>
          simp only [deploy_to, hR, hE, List.singleton_append, hF, hG]
          exact deployLoop_all_not_dotconfig _ _ _ _ _ _

/-- C7: with a per-target require-empty override present, the
configuration-level default is irrelevant (the override takes
precedence); with the resolved value true and a present, non-empty
target, deploy fails with the non-empty-target error before performing
any copy, on either supported OS, also when the value comes from the
configuration-level default; with the resolved value false the target
state is irrelevant and deploy proceeds as over an absent-or-empty
target; and the applier overwrites the destination in place. -/
theorem c7_target_require_empty_resolution (os name : String) (config : Configuration)
    (fs : FS) (b d dd ne : Bool) :
    (deploy_to os name (withRequireEmpty config (some b) d) ne fs
      = deploy_to os name (withRequireEmpty config (some b) dd) ne fs)
    ∧ (deploy_to os name (withRequireEmpty config (some false) d) ne fs
      = deploy_to os name (withRequireEmpty config (some false) d) false fs)
    ∧ (deploy_to "linux" name (withRequireEmpty config (some true) d) true fs
      = ⟨.error targetNotEmptyMsg, []⟩)
    ∧ (deploy_to "windows" name (withRequireEmpty config (some true) d) true fs
      = ⟨.error targetNotEmptyMsg, []⟩)
    ∧ (deploy_to "linux" name (withRequireEmpty config none true) true fs
      = ⟨.error targetNotEmptyMsg, []⟩)
    ∧ (deploy_to "windows" name (withRequireEmpty config none true) true fs
      = ⟨.error targetNotEmptyMsg, []⟩)
    ∧ (∀ (fs2 : FS) (op : CopyOp),
        FS.read (applyCopy fs2 op) op.dest
          = match FS.read fs2 op.source with
            | some c => some c
            | none => FS.read fs2 op.dest) := by
  refine ⟨?_, ?_, ?_, ?_, ?_, ?_, ?_⟩
  · refine deploy_to_congr os name _ _ ne ne fs
      (resolveDeployTarget_fields os _ _ rfl rfl) (fun t ht => ?_) rfl
    have hper := resolveDeployTarget_requireEmpty os config (some b) d t ht
    unfold requireEmptyCheck
    rw [hper]
  · refine deploy_to_congr os name _ _ ne false fs rfl (fun t ht => ?_) rfl
    have hper := resolveDeployTarget_requireEmpty os config (some false) d t ht
    unfold requireEmptyCheck
    rw [hper]
    rfl
  · rfl
  · rfl
  · rfl
  · rfl
  · intro fs2 op
    unfold applyCopy
    cases h : FS.read fs2 op.source with
    | some c => exact FS.read_writeFile_self fs2 op.dest c
    | none => rfl

/-- C8: deploy without a configuration name processes the configurations
sequentially; provided no deploy panics (as a malformed glob would), an
error from one configuration is caught and the remaining configurations
are still attempted, each with its own independent deploy_to outcome, and
the overall invocation returns Ok. -/
theorem c8_deploy_all_continues_after_error (os : String)
    (configs : List (String × Configuration)) (nonEmpty : String → Bool) (fs : FS)
    (h : ∀ entry ∈ configs,
        ((deploy_to os entry.1 entry.2 (nonEmpty entry.1) fs).result).isPanicked = false) :
    (deploy_all os configs nonEmpty fs).1 = .ok ()
    ∧ (deploy_all os configs nonEmpty fs).2
        = configs.map (fun entry => deploy_to os entry.1 entry.2 (nonEmpty entry.1) fs) := by
  induction configs with
  | nil => exact ⟨rfl, rfl⟩
  | cons entry rest ih =>
    have hhead := h entry (by simp)
    have htail : ∀ e ∈ rest,
        ((deploy_to os e.1 e.2 (nonEmpty e.1) fs).result).isPanicked = false :=
      fun e he => h e (by simp [he])
    obtain ⟨ih1, ih2⟩ := ih htail
    cases hr : (deploy_to os entry.1 entry.2 (nonEmpty entry.1) fs).result with
    | ok v => simp [deploy_all, hr, ih1, ih2]
    | error msg => simp [deploy_all, hr, ih1, ih2]
    | panicked msg => rw [hr] at hhead; exact absurd hhead (by simp [Outcome.isPanicked])

/-- Configurations for the C8 witness: config bad requires an empty
target and its target is non-empty, so its deploy errors; config good
deploys one file. -/
def c8Configs : List (String × Configuration) :=
  [("bad", withRequireEmpty baseConfig (some true) false), ("good", baseConfig)]

/-- The filesystem for the C8 witness run. -/
def c8Fs : FS :=
  [(["bad", "dotconfig.toml"], some "b"), (["good", "dotconfig.toml"], some "g"),
   (["good", "f"], some "x")]

/-- Whether a target directory is non-empty in the C8 witness run. -/
def c8NonEmpty (name : String) : Bool := name == "bad"

/-- Witness for C8: the first configuration errors, the second is still
deployed, and the whole run returns Ok. -/
theorem c8_witness :
    (deploy_all "linux" c8Configs c8NonEmpty c8Fs).1 = .ok ()
    ∧ (deploy_all "linux" c8Configs c8NonEmpty c8Fs).2
        = c8Configs.map
            (fun entry => deploy_to "linux" entry.1 entry.2 (c8NonEmpty entry.1) c8Fs) :=
  c8_deploy_all_continues_after_error "linux" c8Configs c8NonEmpty c8Fs (by decide)

/-- C9: during a pull, a candidate that reaches the confirmation prompt
and is declined contributes nothing: provided the candidates before it
completed without an abort, the run's final outcome and performed copies
equal those of the run without the declined candidate, so the remaining
candidates are still processed; and when no other candidate shares its
relative path, applying the performed copies leaves the declined
candidate's destination file byte-for-byte unchanged. -/
theorem c9_pull_decline_frame (excl : Path → Bool)
    (configDir dotconfig root : Path) (fs : FS) (answer : Path → Bool)
    (pre post : List Path) (c rel : Path)
    (hpre : (pullLoop excl configDir dotconfig root fs answer pre).result = .ok ())
    (hrel : dropBase root c = some rel) (hexcl : excl rel = false)
    (hdc : configDir ++ rel ≠ dotconfig)
    (hsrc : (FS.read fs c).isSome = true)
    (hans : answer c = false)
    (hother : ∀ p ∈ pre ++ post, dropBase root p ≠ some rel) :
    (pullLoop excl configDir dotconfig root fs answer (pre ++ c :: post)).result
        = (pullLoop excl configDir dotconfig root fs answer (pre ++ post)).result
    ∧ (pullLoop excl configDir dotconfig root fs answer (pre ++ c :: post)).copies
        = (pullLoop excl configDir dotconfig root fs answer (pre ++ post)).copies
    ∧ FS.read
        (applyCopies fs
          (pullLoop excl configDir dotconfig root fs answer (pre ++ c :: post)).copies)
        (configDir ++ rel)
      = FS.read fs (configDir ++ rel) := by
  have hstep := pullStep_declined excl configDir dotconfig root fs answer c rel
    hrel hexcl hdc hsrc hans
  have hmid : pullLoop excl configDir dotconfig root fs answer (c :: post)
      = ⟨(pullLoop excl configDir dotconfig root fs answer post).result,
         c :: (pullLoop excl configDir dotconfig root fs answer post).prompts,
         (pullLoop excl configDir dotconfig root fs answer post).copies⟩ := by
    rw [pullLoop]
    simp only [hstep]
  have hL := pullLoop_append excl configDir dotconfig root fs answer pre (c :: post) hpre
  have hR := pullLoop_append excl configDir dotconfig root fs answer pre post hpre
  rw [hL, hR, hmid]
  refine ⟨rfl, rfl, ?_⟩
  apply applyCopies_read_of_not_dest
  intro op hop
  rw [List.mem_append] at hop
  have hspec : op.source ∈ pre ++ post ∧ ∃ r2, dropBase root op.source = some r2
      ∧ excl r2 = false ∧ configDir ++ r2 ≠ dotconfig ∧ op.dest = configDir ++ r2 := by
    cases hop with
    | inl hp =>
      obtain ⟨h1, h2⟩ := pullLoop_copies_spec excl configDir dotconfig root fs answer pre op hp
      exact ⟨List.mem_append_left post h1, h2⟩
    | inr hp =>
      obtain ⟨h1, h2⟩ := pullLoop_copies_spec excl configDir dotconfig root fs answer post op hp
      exact ⟨List.mem_append_right pre h1, h2⟩
  obtain ⟨hmem, r2, hr2, -, -, hdest⟩ := hspec
  rw [hdest]
  intro heq
  have : r2 = rel := List.append_cancel_left heq
  rw [this] at hr2
  exact hother op.source hmem hr2

/-- The filesystem for the C9 witness run: the declined candidate's
destination already exists with identical contents. -/
def c9Fs : FS :=
  [(["r", "a"], some "x"), (["r", "b"], some "y"), (["c", "a"], some "x")]

/-- The answer function for the C9 witness: decline exactly r/a. -/
def c9Answer (p : Path) : Bool := p != ["r", "a"]

/-- Witness for C9 at a concrete run: declining r/a changes neither the
outcome nor the copies relative to the run without it, and leaves the
destination c/a unchanged. -/
theorem c9_witness :
    (pullLoop (fun _ => false) ["c"] ["c", "dotconfig.toml"] ["r"] c9Fs c9Answer
        ([] ++ ["r", "a"] :: [["r", "b"]])).result
      = (pullLoop (fun _ => false) ["c"] ["c", "dotconfig.toml"] ["r"] c9Fs c9Answer
          ([] ++ [["r", "b"]])).result
    ∧ (pullLoop (fun _ => false) ["c"] ["c", "dotconfig.toml"] ["r"] c9Fs c9Answer
        ([] ++ ["r", "a"] :: [["r", "b"]])).copies
      = (pullLoop (fun _ => false) ["c"] ["c", "dotconfig.toml"] ["r"] c9Fs c9Answer
          ([] ++ [["r", "b"]])).copies
    ∧ FS.read
        (applyCopies c9Fs
          (pullLoop (fun _ => false) ["c"] ["c", "dotconfig.toml"] ["r"] c9Fs c9Answer
            ([] ++ ["r", "a"] :: [["r", "b"]])).copies)
        (["c"] ++ ["a"])
      = FS.read c9Fs (["c"] ++ ["a"]) :=
  c9_pull_decline_frame (fun _ => false) ["c"] ["c", "dotconfig.toml"] ["r"] c9Fs
    c9Answer [] [["r", "b"]] ["r", "a"] ["a"] (by decide) (by decide) (by decide)
    (by decide) (by decide) (by decide) (by decide)

/-- C10: during a pull, every candidate that is neither excluded nor the
dotconfig collision reaches the confirmation prompt (whatever the
destination state, in particular also when the destination already holds
identical contents), and is copied when the prompt is confirmed;
identical files are not silently skipped. -/
theorem c10_pull_prompts_all_candidates (excl : Path → Bool)
    (configDir dotconfig root : Path) (fs : FS) (answer : Path → Bool)
    (pre post : List Path) (c rel : Path)
    (hpre : (pullLoop excl configDir dotconfig root fs answer pre).result = .ok ())
    (hrel : dropBase root c = some rel) (hexcl : excl rel = false)
    (hdc : configDir ++ rel ≠ dotconfig)
    (hsrc : (FS.read fs c).isSome = true) :
    c ∈ (pullLoop excl configDir dotconfig root fs answer (pre ++ c :: post)).prompts
    ∧ (answer c = true →
        (⟨c, configDir ++ rel⟩ : CopyOp)
          ∈ (pullLoop excl configDir dotconfig root fs answer (pre ++ c :: post)).copies) := by
  rw [pullLoop_append excl configDir dotconfig root fs answer pre (c :: post) hpre]
  cases hans : answer c with
  | false =>
    have hstep := pullStep_declined excl configDir dotconfig root fs answer c rel
      hrel hexcl hdc hsrc hans
    constructor
    · rw [pullLoop]
      simp [hstep]
    · intro hcontra
      exact absurd hcontra (by simp)
  | true =>
    have hstep := pullStep_accepted excl configDir dotconfig root fs answer c rel
      hrel hexcl hdc hsrc hans
    constructor
    · rw [pullLoop]
      simp [hstep]
    · intro _
      rw [pullLoop]
      simp [hstep]

/-- The filesystem for the C10 witness run: the candidate's destination
already exists with byte-identical contents. -/
def c10Fs : FS :=
  [(["r", "a"], some "same"), (["c", "a"], some "same"),
   (["c", "dotconfig.toml"], some "cfg")]

/-- Witness for C10 at a concrete run whose destination holds identical
contents: the candidate is still prompted and, confirmed, still copied. -/
theorem c10_witness :
    (["r", "a"] : Path)
      ∈ (pullLoop (fun _ => false) ["c"] ["c", "dotconfig.toml"] ["r"] c10Fs
          (fun _ => true) ([] ++ ["r", "a"] :: [])).prompts
    ∧ ((fun _ : Path => true) ["r", "a"] = true →
        (⟨["r", "a"], ["c"] ++ ["a"]⟩ : CopyOp)
          ∈ (pullLoop (fun _ => false) ["c"] ["c", "dotconfig.toml"] ["r"] c10Fs
              (fun _ => true) ([] ++ ["r", "a"] :: [])).copies) :=
  c10_pull_prompts_all_candidates (fun _ => false) ["c"] ["c", "dotconfig.toml"] ["r"]
    c10Fs (fun _ => true) [] [] ["r", "a"] ["a"] (by decide) (by decide) (by decide)
    (by decide) (by decide)

end Dottor
